import Mathlib

/-!
Verification development for the webxr-eye-paint replication core.

The server side (`PainterRoom`, the Cloudflare Durable Object in
`src/unnamed/part_002`) and the client side (`SnapshotSync` in
`src/src/colorwheel.ts:230-303`) are shallowly embedded below.  Byte sequences are
modelled as `List Nat`, machine words as `Nat` reduced modulo `2 ^ 32`,
strings as Lean `String`, and the asynchronous handlers as pure state
transformers taking the outcome of each awaited network call as an
explicit argument.
-/

namespace Sha256

/-- Reduce a natural number to a 32-bit word. -/
def w32 (n : Nat) : Nat := n % 4294967296

/-- Right rotation of a 32-bit word by `n` places. -/
def rotr (n x : Nat) : Nat := w32 (x / 2 ^ n + x % 2 ^ n * 2 ^ (32 - n))

/-- Bitwise complement on 32 bits. -/
def compl32 (x : Nat) : Nat := 4294967295 - w32 x

/-- The SHA-256 choice function. -/
def ch (x y z : Nat) : Nat := (x &&& y) ^^^ (compl32 x &&& z)

/-- The SHA-256 majority function. -/
def maj (x y z : Nat) : Nat := (x &&& y) ^^^ (x &&& z) ^^^ (y &&& z)

/-- Big sigma-0 of FIPS 180-4. -/
def bigS0 (x : Nat) : Nat := rotr 2 x ^^^ rotr 13 x ^^^ rotr 22 x

/-- Big sigma-1 of FIPS 180-4. -/
def bigS1 (x : Nat) : Nat := rotr 6 x ^^^ rotr 11 x ^^^ rotr 25 x

/-- Small sigma-0 of FIPS 180-4. -/
def smallS0 (x : Nat) : Nat := rotr 7 x ^^^ rotr 18 x ^^^ x / 2 ^ 3

/-- Small sigma-1 of FIPS 180-4. -/
def smallS1 (x : Nat) : Nat := rotr 17 x ^^^ rotr 19 x ^^^ x / 2 ^ 10

/-- The 64 SHA-256 round constants of FIPS 180-4 (the fractional parts of the
cube roots of the first 64 primes), here written in decimal: the first is
0x428a2f98, the last 0xc67178f2. -/
def K : List Nat :=
  [1116352408, 1899447441, 3049323471, 3921009573, 961987163, 1508970993,
   2453635748, 2870763221, 3624381080, 310598401, 607225278, 1426881987,
   1925078388, 2162078206, 2614888103, 3248222580, 3835390401, 4022224774,
   264347078, 604807628, 770255983, 1249150122, 1555081692, 1996064986,
   2554220882, 2821834349, 2952996808, 3210313671, 3336571891, 3584528711,
   113926993, 338241895, 666307205, 773529912, 1294757372, 1396182291,
   1695183700, 1986661051, 2177026350, 2456956037, 2730485921, 2820302411,
   3259730800, 3345764771, 3516065817, 3600352804, 4094571909, 275423344,
   430227734, 506948616, 659060556, 883997877, 958139571, 1322822218,
   1537002063, 1747873779, 1955562222, 2024104815, 2227730452, 2361852424,
   2428436474, 2756734187, 3204031479, 3329325298]

/-- The running hash state: eight 32-bit working variables. -/
structure Hash8 where
  a : Nat
  b : Nat
  c : Nat
  d : Nat
  e : Nat
  f : Nat
  g : Nat
  h : Nat
deriving DecidableEq, Repr

/-- The SHA-256 initial hash value of FIPS 180-4, in decimal (the first word
is 0x6a09e667, the last 0x5be0cd19). -/
def initHash : Hash8 :=
  ⟨1779033703, 3144134277, 1013904242, 2773480762,
   1359893119, 2600822924, 528734635, 1541459225⟩

/-- One compression round; `kw` is the round constant plus the schedule word. -/
def round (st : Hash8) (kw : Nat) : Hash8 :=
  let t1 := w32 (st.h + bigS1 st.e + ch st.e st.f st.g + kw)
  let t2 := w32 (bigS0 st.a + maj st.a st.b st.c)
  ⟨w32 (t1 + t2), st.a, st.b, st.c, w32 (st.d + t1), st.e, st.f, st.g⟩

/-- Extend the message schedule by one word; `ws` holds the schedule so far,
newest word first. -/
def scheduleStep (ws : List Nat) : List Nat :=
  w32 (smallS1 (ws.getD 1 0) + ws.getD 6 0 + smallS0 (ws.getD 14 0) + ws.getD 15 0) :: ws

/-- The 64-word message schedule from the 16 words of one block. -/
def schedule (w16 : List Nat) : List Nat :=
  ((List.range 48).foldl (fun ws _ => scheduleStep ws) w16.reverse).reverse

/-- Big-endian packing of bytes into 32-bit words. -/
def bytesToWords : List Nat → List Nat
  | b0 :: b1 :: b2 :: b3 :: rest =>
      (b0 * 16777216 + b1 * 65536 + b2 * 256 + b3) :: bytesToWords rest
  | _ => []

/-- Compress one block, given as its 16 message-schedule input words, into the
running hash state. -/
def compressBlock (h0 : Hash8) (block : List Nat) : Hash8 :=
  let w := schedule block
  let st := (K.zip w).foldl (fun st kw => round st (kw.1 + kw.2)) h0
  ⟨w32 (h0.a + st.a), w32 (h0.b + st.b), w32 (h0.c + st.c), w32 (h0.d + st.d),
   w32 (h0.e + st.e), w32 (h0.f + st.f), w32 (h0.g + st.g), w32 (h0.h + st.h)⟩

/-- Fold the compression function over a padded message's words, 16 words
(one 64-byte block) at a time. -/
def processWords : Hash8 → List Nat → Hash8
  | h, w0 :: w1 :: w2 :: w3 :: w4 :: w5 :: w6 :: w7 ::
       w8 :: w9 :: w10 :: w11 :: w12 :: w13 :: w14 :: w15 :: rest =>
      processWords
        (compressBlock h [w0, w1, w2, w3, w4, w5, w6, w7, w8, w9, w10, w11, w12, w13, w14, w15])
        rest
  | h, _ => h

/-- The 8-byte big-endian encoding of the message bit length. -/
def lengthBytes (n : Nat) : List Nat :=
  [n / 2 ^ 56 % 256, n / 2 ^ 48 % 256, n / 2 ^ 40 % 256, n / 2 ^ 32 % 256,
   n / 2 ^ 24 % 256, n / 2 ^ 16 % 256, n / 2 ^ 8 % 256, n % 256]

/-- SHA-256 padding: append `0x80`, zero bytes to 56 mod 64, then the bit length. -/
def padMessage (msg : List Nat) : List Nat :=
  let len := msg.length
  msg ++ [128] ++ List.replicate ((64 - (len + 9) % 64) % 64) 0 ++ lengthBytes (len * 8)

/-- Big-endian bytes of one 32-bit word. -/
def wordBytes (w : Nat) : List Nat :=
  [w / 16777216 % 256, w / 65536 % 256, w / 256 % 256, w % 256]

/-- The 32 digest bytes of a final hash state. -/
def digestBytes (st : Hash8) : List Nat :=
  wordBytes st.a ++ wordBytes st.b ++ wordBytes st.c ++ wordBytes st.d ++
  wordBytes st.e ++ wordBytes st.f ++ wordBytes st.g ++ wordBytes st.h

/-- SHA-256 digest of a byte sequence.  This models the Web Crypto platform
primitive `crypto.subtle.digest('SHA-256', data)` invoked by both
`PainterRoom.hash` (src/unnamed/part_002:57) and `SnapshotSync.hashBlob`
(src/src/colorwheel.ts:300); it is the algorithm of FIPS 180-4. -/
def sha256 (msg : List Nat) : List Nat :=
  digestBytes (processWords initHash (bytesToWords (padMessage msg)))

end Sha256

/-- Lowercase hexadecimal digit characters, as produced by JavaScript
`Number.prototype.toString(16)`. -/
def hexDigitChar (n : Nat) : Char :=
  if n < 10 then Char.ofNat (48 + n) else Char.ofNat (87 + n)

/-- Hexadecimal digit accumulation for `toString16`; the first argument is
fuel bounding the number of digits, so the recursion is structural. -/
def toString16Aux : Nat → Nat → List Char → List Char
  | 0, _, acc => acc
  | _ + 1, 0, acc => acc
  | fuel + 1, n, acc => toString16Aux fuel (n / 16) (hexDigitChar (n % 16) :: acc)

/-- JavaScript `b.toString(16)` on a natural number: lowercase hex, and `"0"`
for zero. -/
def toString16 (n : Nat) : String :=
  if n = 0 then "0" else String.mk (toString16Aux n n [])

/-- JavaScript `s.padStart(2, '0')`. -/
def padStart2 (s : String) : String :=
  String.mk (List.replicate (2 - s.length) '0') ++ s

set_option maxRecDepth 100000 in
/-- The SHA-256 digest of the empty message agrees with the published test
vector (checked through the kernel, not the compiler). -/
theorem sha256_empty_vector :
    String.join ((Sha256.sha256 []).map (fun b => padStart2 (toString16 b))) =
      "e3b0c44298fc1c149afbf4c8996fb92427ae41e4649b934ca495991b7852b855" := by decide

/-- JavaScript truthiness of a nullable string: `null` and the empty string
are falsy, everything else truthy. -/
def truthy : Option String → Bool
  | none => false
  | some s => s != ""

namespace PainterRoom

/-- One per-eye replica of `PainterRoom` (src/unnamed/part_002:1): content bytes,
version tag and last-modified time, each `null`able. -/
structure EyeState where
  bytes : Option (List Nat)
  etag : Option String
  updatedAt : Nat
deriving DecidableEq, Repr

/-- The eye keys of the record `Record<'left' | 'right', EyeState>`. -/
inductive EyeKey
  | left
  | right
deriving DecidableEq, Repr

/-- The in-memory `this.eyes` record of `PainterRoom` (src/unnamed/part_002:5-8). -/
structure Eyes where
  left : EyeState
  right : EyeState
deriving DecidableEq, Repr

/-- Read one eye of the record. -/
def Eyes.get (r : Eyes) : EyeKey → EyeState
  | .left => r.left
  | .right => r.right

/-- Replace one eye of the record. -/
def Eyes.set (r : Eyes) : EyeKey → EyeState → Eyes
  | .left, v => { r with left := v }
  | .right, v => { r with right := v }

/-- The full Durable Object state: the in-memory `eyes` record plus the
`'eyes'` slot of `this.state.storage` (the durable copy written by
`persist` and read by `load`). -/
structure RoomState where
  eyes : Eyes
  storage : Option Eyes
deriving DecidableEq, Repr

/-- The field initializer of `this.eyes` (src/unnamed/part_002:5-8). -/
def initialEyes : Eyes :=
  ⟨⟨none, none, 0⟩, ⟨none, none, 0⟩⟩

/-- A freshly constructed room: initialized eyes, nothing yet persisted. -/
def initialRoom : RoomState :=
  ⟨initialEyes, none⟩

/-- The HTTP methods the handler distinguishes; `OTHER` stands for every
remaining method string. -/
inductive Method
  | GET
  | HEAD
  | PUT
  | DELETE
  | OTHER
deriving DecidableEq, Repr

/-- The parts of an incoming `Request` the handler reads: method, the `eye`
query parameter, the `If-None-Match` header and the body bytes. -/
structure Request where
  method : Method
  eyeParam : Option String
  ifNoneMatch : Option String
  body : List Nat
deriving DecidableEq, Repr

/-- The parts of a `Response` the clients read: status, body bytes, and the
`ETag` and `Last-Modified` headers. -/
structure Response where
  status : Nat
  body : Option (List Nat)
  etag : Option String
  lastModified : Option Nat
deriving DecidableEq, Repr

/-- Eye-parameter parsing (src/unnamed/part_002:16-17):
`(eyeParam === 'left' || eyeParam === 'right') ? eyeParam : 'left'`. -/
def parseEye : Option String → EyeKey
  | some s => if s = "left" then .left else if s = "right" then .right else .left
  | none => .left

/-- The `ETag` lowercase-hex digest (src/unnamed/part_002:56-60): SHA-256 of the
bytes, each digest byte rendered by `b.toString(16).padStart(2, '0')` and
joined. -/
def hash (data : List Nat) : String :=
  String.join ((Sha256.sha256 data).map (fun b => padStart2 (toString16 b)))

/-- The `load` method (src/unnamed/part_002:50-53): read the persisted `'eyes'`
record; `if (saved) this.eyes = saved`. -/
def load (s : RoomState) : RoomState :=
  match s.storage with
  | some saved => { s with eyes := saved }
  | none => s

/-- The lazy-load guard (src/unnamed/part_002:18):
`if (!this.eyes.left.bytes && !this.eyes.right.bytes) await this.load()`.
A `Uint8Array` is truthy even when empty, so the test is exactly "both
byte fields are null". -/
def maybeLoad (s : RoomState) : RoomState :=
  if s.eyes.left.bytes = none ∧ s.eyes.right.bytes = none then load s else s

/-- The `persist` method (src/unnamed/part_002:54): write the whole `eyes` record
into durable storage. -/
def persist (s : RoomState) : RoomState :=
  { s with storage := some s.eyes }

/-- The `fetch` request handler of `PainterRoom` (src/unnamed/part_002:14-48),
with `Date.now()` passed in as `now`. -/
def fetch (s : RoomState) (req : Request) (now : Nat) : RoomState × Response :=
  let eye := parseEye req.eyeParam
  let s := maybeLoad s
  match req.method with
  | .GET | .HEAD =>
      let e := s.eyes.get eye
      let etagHdr := if truthy e.etag then e.etag else none
      let lmHdr := if e.updatedAt ≠ 0 then some e.updatedAt else none
      if truthy req.ifNoneMatch && truthy e.etag && (req.ifNoneMatch == e.etag) then
        (s, ⟨304, none, etagHdr, lmHdr⟩)
      else if req.method = .HEAD then
        (s, ⟨200, none, etagHdr, lmHdr⟩)
      else
        match e.bytes with
        | none => (s, ⟨204, none, etagHdr, lmHdr⟩)
        | some b => (s, ⟨200, some b, etagHdr, lmHdr⟩)
  | .PUT =>
      let etag := hash req.body
      let s := persist { s with eyes := s.eyes.set eye ⟨some req.body, some etag, now⟩ }
      (s, ⟨204, none, some etag, none⟩)
  | .DELETE =>
      let s := persist { s with eyes := s.eyes.set eye ⟨none, none, now⟩ }
      (s, ⟨204, none, none, none⟩)
  | .OTHER => (s, ⟨405, none, none, none⟩)

end PainterRoom

/-- Room routing of the worker (src/unnamed/part_003:14):
`const room = url.searchParams.get('room') || 'global'` — `null` and the
empty string both fall back to `'global'`; the name then selects the one
Durable Object instance for that room. -/
def resolveRoom : Option String → String
  | some r => if r = "" then "global" else r
  | none => "global"

namespace SnapshotSync

/-- The client hash (src/src/colorwheel.ts:298-302): SHA-256 of the blob's bytes,
each digest byte rendered by `b.toString(16).padStart(2, '0')` and
joined. -/
def hashBlob (blob : List Nat) : String :=
  String.join ((Sha256.sha256 blob).map (fun b => padStart2 (toString16 b)))

/-- The fixed debounce delay of `scheduleSave` (src/src/colorwheel.ts:265), in
milliseconds. -/
def debounceDelay : Nat := 900

/-- The timer bookkeeping of `scheduleSave` (src/src/colorwheel.ts:253-254): any
pending timer for the eye is cleared with `clearTimeout`, then a fresh
single-shot timer is armed for `now + 900`.  The state is the deadline of
the (at most one) pending timer. -/
def scheduleSave (pending : Option Nat) (now : Nat) : Option Nat :=
  match pending with
  | some _ => some (now + debounceDelay)
  | none => some (now + debounceDelay)

/-- A single-shot timer fires exactly when the clock reaches its deadline. -/
def timerFiresAt (pending : Option Nat) (t : Nat) : Bool :=
  pending == some t

/-- Outcome of the awaited `fetch(..., { method: 'PUT' })` inside the timer
callback: a response with `res.ok` and its `ETag` header, a non-ok
response, or a network error (rejected promise). -/
inductive PutOutcome
  | ok (etagHeader : Option String)
  | notOk
  | netError
deriving DecidableEq, Repr

/-- Observable result of one timer-callback run: how many network calls were
issued, the painter's dirty flag afterwards, and the cached tag
(`this.etag[eye]`) afterwards. -/
structure FireOut where
  calls : Nat
  dirty : Bool
  tag : Option String
deriving DecidableEq, Repr

/-- The debounce-timer callback (src/src/colorwheel.ts:254-265), as a function of the
painter's dirty flag, the current content bytes (`exportPNG`), the cached
tag and the outcome of the PUT (if one is issued).  Mirrors the source
line by line: return early when not dirty; hash the content; when the hash
equals the cached tag, `markSaved` and return without fetching; otherwise
PUT, and only on `res.ok` cache `ETag ?? etag` and `markSaved`. -/
def onTimerFire (dirty : Bool) (content : List Nat) (tag : Option String)
    (out : PutOutcome) : FireOut :=
  if !dirty then ⟨0, dirty, tag⟩
  else
    let etag := hashBlob content
    if tag = some etag then ⟨0, false, tag⟩
    else
      match out with
      | .ok hdr => ⟨1, false, some (hdr.getD etag)⟩
      | .notOk => ⟨1, true, tag⟩
      | .netError => ⟨1, true, tag⟩

/-- The parts of a HEAD response `check` reads (src/src/colorwheel.ts:274-276):
`res.ok` and the `ETag` header. -/
structure HeadResp where
  ok : Bool
  etagHeader : Option String
deriving DecidableEq, Repr

/-- The GET responses `pull` distinguishes (src/src/colorwheel.ts:283-294):
status 200 with body and `ETag` header, status 204, or anything else. -/
inductive GetResp
  | ok200 (body : List Nat) (etagHeader : Option String)
  | noContent204
  | other (status : Nat)
deriving DecidableEq, Repr

/-- The `pull` method (src/src/colorwheel.ts:283-294) as a function of the cached tag
and the GET response.  Returns the new cached tag and the action handed to
the painter: `some (some b)` for `drawBitmapToEye b`, `some none` for
`clearEye` (content cleared), `none` for no call. -/
def pull (tag : Option String) (resp : GetResp) :
    Option String × Option (Option (List Nat)) :=
  match resp with
  | .ok200 b hdr => (hdr, some (some b))
  | .noContent204 => (none, some none)
  | .other _ => (tag, none)

/-- One poll tick: the `check` method (src/src/colorwheel.ts:273-281) as a function
of the cached tag, the HEAD response, and the GET response that the inner
`pull` would receive.  Returns the new cached tag, the action handed to
the painter, and whether a GET was issued.  `if (remote && remote !==
this.etag[eye])`: the remote tag must be truthy and differ from the cache;
only then is the cache overwritten and `pull` awaited. -/
def check (tag : Option String) (hresp : HeadResp) (gresp : GetResp) :
    Option String × Option (Option (List Nat)) × Bool :=
  if !hresp.ok then (tag, none, false)
  else
    match hresp.etagHeader with
    | none => (tag, none, false)
    | some remote =>
        if remote ≠ "" ∧ some remote ≠ tag then
          let p := pull (some remote) gresp
          (p.1, p.2, true)
        else (tag, none, false)

end SnapshotSync

namespace PainterRoom

/-- Well-formedness of one replica: its tag is exactly the hash of its
content (and in particular `null` exactly when the content is `null`). -/
def eyeWF (e : EyeState) : Prop :=
  e.etag = e.bytes.map hash

/-- Well-formedness of a whole eyes record. -/
def eyesWF (r : Eyes) : Prop :=
  eyeWF r.left ∧ eyeWF r.right

/-- Well-formedness of the full store state: the in-memory record and any
persisted record are both well formed. -/
def roomWF (s : RoomState) : Prop :=
  eyesWF s.eyes ∧ ∀ v, s.storage = some v → eyesWF v

/-- States of the store reachable from a fresh room by arbitrary requests,
including cold restarts that keep only the persisted storage. -/
inductive Reachable : RoomState → Prop
  | init : Reachable initialRoom
  | step (req : Request) (now : Nat) {s : RoomState} :
      Reachable s → Reachable (fetch s req now).1
  | restart {s : RoomState} :
      Reachable s → Reachable ⟨initialEyes, s.storage⟩

end PainterRoom

section Lemmas

/-- Folding string concatenation only grows the accumulator. -/
lemma length_le_foldl_append (l : List String) :
    ∀ a : String, a.length ≤ (l.foldl (fun r s => r ++ s) a).length := by
  induction l with
  | nil => intro a; exact Nat.le_refl _
  | cons x xs ih =>
      intro a
      calc a.length ≤ (a ++ x).length := by
            rw [String.length_append]; exact Nat.le_add_right _ _
        _ ≤ _ := ih (a ++ x)

/-- A `padStart2` result always holds at least one character. -/
lemma one_le_length_padStart2 (s : String) : 1 ≤ (padStart2 s).length := by
  rw [padStart2, String.length_append]
  have : (String.mk (List.replicate (2 - s.length) '0')).length = 2 - s.length := by
    show (List.replicate (2 - s.length) '0').length = 2 - s.length
    exact List.length_replicate _ _
  omega

/-- A SHA-256 digest starts with a byte, so its byte list is a cons cell. -/
lemma sha256_cons (msg : List Nat) :
    ∃ x rest, Sha256.sha256 msg = x :: rest := by
  simp only [Sha256.sha256, Sha256.digestBytes, Sha256.wordBytes, List.cons_append]
  exact ⟨_, _, rfl⟩

/-- The hex digest returned by `PainterRoom.hash` is never the empty string,
so the server's `if (s.etag)` truthiness test always passes on a stored
tag. -/
lemma hash_ne_empty (b : List Nat) : PainterRoom.hash b ≠ "" := by
  obtain ⟨x, rest, hx⟩ := sha256_cons b
  rw [PainterRoom.hash, hx]
  intro h
  have hlen : (String.join ((x :: rest).map (fun n => padStart2 (toString16 n)))).length = 0 := by
    rw [h]; rfl
  rw [String.join, List.map_cons, List.foldl_cons] at hlen
  have h1 : ("" ++ padStart2 (toString16 x)).length
      ≤ (List.foldl (fun r s => r ++ s) ("" ++ padStart2 (toString16 x))
          (rest.map (fun n => padStart2 (toString16 n)))).length :=
    length_le_foldl_append _ _
  rw [String.length_append] at h1
  have h2 := one_le_length_padStart2 (toString16 x)
  omega

/-- Truthiness of a tag produced by the server hash. -/
lemma truthy_some_hash (b : List Nat) : truthy (some (PainterRoom.hash b)) = true := by
  simp [truthy, hash_ne_empty b]

end Lemmas

section Invariant

open PainterRoom

/-- The initial eyes record is well formed. -/
lemma eyesWF_initial : eyesWF initialEyes := by
  constructor <;> rfl

/-- Replacing one well-formed eye preserves well-formedness of the record. -/
lemma eyesWF_set (r : Eyes) (k : EyeKey) (v : EyeState)
    (hr : eyesWF r) (hv : eyeWF v) : eyesWF (r.set k v) := by
  cases k
  · exact ⟨hv, hr.2⟩
  · exact ⟨hr.1, hv⟩

/-- Reading any eye of a well-formed record yields a well-formed replica. -/
lemma eyeWF_get (r : Eyes) (k : EyeKey) (hr : eyesWF r) : eyeWF (r.get k) := by
  cases k
  · exact hr.1
  · exact hr.2

/-- The lazy load preserves well-formedness: it replaces the in-memory record
with a persisted record that the invariant already covers. -/
lemma roomWF_maybeLoad (s : RoomState) (h : roomWF s) : roomWF (maybeLoad s) := by
  rw [maybeLoad]
  split
  · cases hs : s.storage with
    | none => simpa [load, hs] using h
    | some v =>
        refine ⟨?_, ?_⟩
        · simpa [load, hs] using h.2 v hs
        · intro w hw
          apply h.2
          simpa [load, hs] using hw
  · exact h

/-- A write of a well-formed replica followed by `persist` preserves the full
invariant. -/
lemma roomWF_write (s : RoomState) (k : EyeKey) (v : EyeState)
    (hv : eyeWF v) (h : roomWF s) :
    roomWF (persist { s with eyes := s.eyes.set k v }) := by
  have he : eyesWF (s.eyes.set k v) := eyesWF_set s.eyes k v h.1 hv
  exact ⟨he, fun w hw => by cases hw; exact he⟩

/-- Every branch of the request handler preserves the store invariant. -/
lemma roomWF_fetch (s : RoomState) (req : Request) (now : Nat)
    (h : roomWF s) : roomWF (fetch s req now).1 := by
  obtain ⟨m, p, inm, b⟩ := req
  have hm : roomWF (maybeLoad s) := roomWF_maybeLoad s h
  cases m with
  | GET =>
      have : (fetch s ⟨.GET, p, inm, b⟩ now).1 = maybeLoad s := by
        simp only [fetch]
        split
        · rfl
        · split
          · rfl
          · split <;> rfl
      rw [this]; exact hm
  | HEAD =>
      have : (fetch s ⟨.HEAD, p, inm, b⟩ now).1 = maybeLoad s := by
        simp only [fetch]
        split
        · rfl
        · split
          · rfl
          · split <;> rfl
      rw [this]; exact hm
  | PUT =>
      have : (fetch s ⟨.PUT, p, inm, b⟩ now).1 =
          persist { maybeLoad s with
            eyes := (maybeLoad s).eyes.set (parseEye p) ⟨some b, some (hash b), now⟩ } := rfl
      rw [this]
      exact roomWF_write _ _ _ rfl hm
  | DELETE =>
      have : (fetch s ⟨.DELETE, p, inm, b⟩ now).1 =
          persist { maybeLoad s with
            eyes := (maybeLoad s).eyes.set (parseEye p) ⟨none, none, now⟩ } := rfl
      rw [this]
      exact roomWF_write _ _ _ rfl hm
  | OTHER => exact hm

/-- The store invariant holds in every reachable state. -/
lemma roomWF_reachable {s : RoomState} (h : Reachable s) : roomWF s := by
  induction h with
  | init => exact ⟨eyesWF_initial, fun v hv => by cases hv⟩
  | step req now _ ih => exact roomWF_fetch _ req now ih
  | restart _ ih => exact ⟨eyesWF_initial, ih.2⟩

end Invariant

/-- C1: round trip at the store.  For every prior store state, eye parameter
and byte sequence `b`, a GET (with no `If-None-Match`) immediately after a
PUT of `b` returns status 200 with body exactly `b` and an `ETag` header
equal to the tag the PUT returned, which is the SHA-256 hex digest of
`b`. -/
theorem put_get_round_trip (s : PainterRoom.RoomState) (p : Option String)
    (b : List Nat) (t1 t2 : Nat) :
    (PainterRoom.fetch (PainterRoom.fetch s ⟨.PUT, p, none, b⟩ t1).1
        ⟨.GET, p, none, []⟩ t2).2.status = 200 ∧
    (PainterRoom.fetch (PainterRoom.fetch s ⟨.PUT, p, none, b⟩ t1).1
        ⟨.GET, p, none, []⟩ t2).2.body = some b ∧
    (PainterRoom.fetch (PainterRoom.fetch s ⟨.PUT, p, none, b⟩ t1).1
        ⟨.GET, p, none, []⟩ t2).2.etag = (PainterRoom.fetch s ⟨.PUT, p, none, b⟩ t1).2.etag ∧
    (PainterRoom.fetch s ⟨.PUT, p, none, b⟩ t1).2.etag = some (PainterRoom.hash b) := by
  cases hp : PainterRoom.parseEye p <;>
    simp [PainterRoom.fetch, hp, PainterRoom.maybeLoad, PainterRoom.persist,
      PainterRoom.Eyes.set, PainterRoom.Eyes.get, truthy_some_hash, truthy,
      hash_ne_empty b]

/-- C2: store invariant.  In every state reachable from the initial store (or
from a reloaded persisted state) by any sequence of GET/HEAD/PUT/DELETE
requests, each eye's version tag is `null` exactly when its content is
`null`, and two replicas holding equal content hold equal version tags. -/
theorem store_invariant (s s' : PainterRoom.RoomState)
    (h : PainterRoom.Reachable s) (h' : PainterRoom.Reachable s')
    (k k' : PainterRoom.EyeKey) :
    ((s.eyes.get k).etag = none ↔ (s.eyes.get k).bytes = none) ∧
    ((s.eyes.get k).bytes = (s'.eyes.get k').bytes →
      (s.eyes.get k).etag = (s'.eyes.get k').etag) := by
  have hw := roomWF_reachable h
  have hw' := roomWF_reachable h'
  have h1 := eyeWF_get s.eyes k hw.1
  have h2 := eyeWF_get s'.eyes k' hw'.1
  rw [PainterRoom.eyeWF] at h1 h2
  constructor
  · rw [h1]
    cases (s.eyes.get k).bytes <;> simp
  · intro hb
    rw [h1, h2, hb]

/-- Witness for C2: the invariant instantiated at the initial store state. -/
theorem store_invariant_witness :
    (((PainterRoom.initialRoom.eyes.get .left).etag = none ↔
        (PainterRoom.initialRoom.eyes.get .left).bytes = none) ∧
      ((PainterRoom.initialRoom.eyes.get .left).bytes =
          (PainterRoom.initialRoom.eyes.get .right).bytes →
        (PainterRoom.initialRoom.eyes.get .left).etag =
          (PainterRoom.initialRoom.eyes.get .right).etag)) :=
  store_invariant PainterRoom.initialRoom PainterRoom.initialRoom
    PainterRoom.Reachable.init PainterRoom.Reachable.init .left .right

/-- Similarity of replicas up to the `lastModified` timestamp: equal content
and equal version tag. -/
def PainterRoom.eyeSim (e1 e2 : PainterRoom.EyeState) : Prop :=
  e1.bytes = e2.bytes ∧ e1.etag = e2.etag

/-- Similarity of eyes records up to timestamps. -/
def PainterRoom.eyesSim (r1 r2 : PainterRoom.Eyes) : Prop :=
  PainterRoom.eyeSim r1.left r2.left ∧ PainterRoom.eyeSim r1.right r2.right

/-- Similarity of full store states up to timestamps: the in-memory records
agree and the persisted records agree, in content and tags. -/
def PainterRoom.stateSim (s1 s2 : PainterRoom.RoomState) : Prop :=
  PainterRoom.eyesSim s1.eyes s2.eyes ∧
  match s1.storage, s2.storage with
  | none, none => True
  | some v1, some v2 => PainterRoom.eyesSim v1 v2
  | _, _ => False

/-- C3: idempotent put.  Calling PUT twice with the same bytes yields the
same tag both times, and the second call leaves the store (in-memory and
persisted) identical to the state after the first call except possibly for
the `lastModified` timestamps. -/
theorem put_idempotent (s : PainterRoom.RoomState) (p : Option String)
    (b : List Nat) (t1 t2 : Nat) :
    (PainterRoom.fetch (PainterRoom.fetch s ⟨.PUT, p, none, b⟩ t1).1
        ⟨.PUT, p, none, b⟩ t2).2.etag = (PainterRoom.fetch s ⟨.PUT, p, none, b⟩ t1).2.etag ∧
    PainterRoom.stateSim
      (PainterRoom.fetch (PainterRoom.fetch s ⟨.PUT, p, none, b⟩ t1).1
        ⟨.PUT, p, none, b⟩ t2).1
      (PainterRoom.fetch s ⟨.PUT, p, none, b⟩ t1).1 := by
  cases hp : PainterRoom.parseEye p <;>
    simp [PainterRoom.fetch, hp, PainterRoom.maybeLoad, PainterRoom.persist,
      PainterRoom.Eyes.set, PainterRoom.Eyes.get, PainterRoom.stateSim,
      PainterRoom.eyesSim, PainterRoom.eyeSim]

/-- C4: push suppression.  When the debounce timer fires for a dirty key and
the hash of the current content equals the cached `lastKnownTag`, the
client issues zero network calls, marks the key clean, and keeps its
cached tag — whatever the network would have answered. -/
theorem push_suppression (content : List Nat) (out : SnapshotSync.PutOutcome) :
    SnapshotSync.onTimerFire true content (some (SnapshotSync.hashBlob content)) out =
      ⟨0, false, some (SnapshotSync.hashBlob content)⟩ := by
  simp [SnapshotSync.onTimerFire]

/-- C5 counterexample: the armed debounce timer IS reset by a further
notification.  A first `scheduleSave` at time 0 arms the timer for
time 900; a second notification at time 250 re-arms it for 1150, so the
push does not fire at the originally scheduled time 900. -/
theorem debounce_reset_counterexample :
    SnapshotSync.scheduleSave none 0 = some 900 ∧
    SnapshotSync.scheduleSave (SnapshotSync.scheduleSave none 0) 250 = some 1150 ∧
    SnapshotSync.scheduleSave (SnapshotSync.scheduleSave none 0) 250 ≠ some 900 := by
  decide

/-- C5 amended: each further notification cancels the pending timer and arms
a fresh one, so after any burst of notifications exactly one timer is
pending and it fires one full debounce delay after the LAST notification
(coalescing, but with postponement on every notification). -/
theorem debounce_rearm_on_each_notification (pending : Option Nat)
    (ts : List Nat) (t : Nat) :
    List.foldl SnapshotSync.scheduleSave pending (ts ++ [t]) =
      some (t + SnapshotSync.debounceDelay) ∧
    SnapshotSync.timerFiresAt (List.foldl SnapshotSync.scheduleSave pending (ts ++ [t]))
      (t + SnapshotSync.debounceDelay) = true := by
  have h : List.foldl SnapshotSync.scheduleSave pending (ts ++ [t]) =
      some (t + SnapshotSync.debounceDelay) := by
    rw [List.foldl_append]
    cases List.foldl SnapshotSync.scheduleSave pending ts <;> rfl
  exact ⟨h, by rw [h]; simp [SnapshotSync.timerFiresAt]⟩

/-- C6 counterexample: a remote delete is NOT propagated by the poll loop.
After a DELETE, the store answers HEAD with status 200 and no `ETag`
header; feeding that response to `check` while the client still caches a
tag leaves the cache untouched, issues no GET, and hands nothing — in
particular not "cleared" — to the Consumer. -/
theorem remote_delete_not_propagated_counterexample :
    (PainterRoom.fetch
        (PainterRoom.fetch PainterRoom.initialRoom ⟨.DELETE, some "left", none, []⟩ 1).1
        ⟨.HEAD, some "left", none, []⟩ 2).2.status = 200 ∧
    (PainterRoom.fetch
        (PainterRoom.fetch PainterRoom.initialRoom ⟨.DELETE, some "left", none, []⟩ 1).1
        ⟨.HEAD, some "left", none, []⟩ 2).2.etag = none ∧
    SnapshotSync.check (some "a") ⟨true, none⟩ .noContent204 = (some "a", none, false) := by
  decide

/-- C6 amended: on a poll tick whose HEAD response carries no `ETag` header,
`check` does nothing at all — no GET, no Consumer call, cache unchanged —
so a remote delete is never propagated by the poll loop; "cleared" reaches
the Consumer only when a GET actually returns 204 (as in the initial
pull), in which case the eye is cleared and the cached tag nulled. -/
theorem head_absent_tag_ignored (tag : Option String) (ok : Bool)
    (g : SnapshotSync.GetResp) :
    SnapshotSync.check tag ⟨ok, none⟩ g = (tag, none, false) ∧
    SnapshotSync.pull tag .noContent204 = (none, some none) := by
  cases ok <;> simp [SnapshotSync.check, SnapshotSync.pull]

/-- C7 counterexample: a stale response is applied, not discarded.  The
client first caches tag `"a"`, then observes tag `"b"`; when a delayed
response still tagged `"a"` arrives, `pull` hands its bytes to the
Consumer and regresses the cached tag back to `"a"`. -/
theorem stale_response_applied_counterexample :
    (SnapshotSync.pull none (.ok200 [1] (some "a"))).1 = some "a" ∧
    (SnapshotSync.check (some "a") ⟨true, some "b"⟩ (.ok200 [2] (some "b"))).1 = some "b" ∧
    SnapshotSync.pull (some "b") (.ok200 [9] (some "a")) = (some "a", some (some [9])) := by
  decide

/-- C7 amended: `pull` applies every 200 response unconditionally — the body
is always handed to the Consumer and the cached tag is always overwritten
with the response's `ETag` header, with no staleness detection of any
kind. -/
theorem pull_applies_unconditionally (tag : Option String) (b : List Nat)
    (hdr : Option String) :
    SnapshotSync.pull tag (.ok200 b hdr) = (hdr, some (some b)) := rfl

/-- C8: a failed push leaves the key dirty.  If the PUT issued on timer fire
returns non-ok or errors out, the client neither marks the key clean nor
updates `lastKnownTag`, so the next timer fire under the same conditions
would issue the PUT again. -/
theorem failed_push_leaves_dirty (content : List Nat) (tag : Option String)
    (h : tag ≠ some (SnapshotSync.hashBlob content)) :
    SnapshotSync.onTimerFire true content tag .notOk = ⟨1, true, tag⟩ ∧
    SnapshotSync.onTimerFire true content tag .netError = ⟨1, true, tag⟩ := by
  simp [SnapshotSync.onTimerFire, h]

/-- Witness for C8: a dirty key with no cached tag and a failing PUT stays
dirty with its tag unchanged, for both failure modes. -/
theorem failed_push_leaves_dirty_witness :
    SnapshotSync.onTimerFire true [] none .notOk = ⟨1, true, none⟩ ∧
    SnapshotSync.onTimerFire true [] none .netError = ⟨1, true, none⟩ :=
  failed_push_leaves_dirty [] none (by simp)

/-- C9: the client's `hashBlob` and the server's `hash` agree on every byte
sequence — both are the lowercase-hex SHA-256 digest. -/
theorem client_server_same_hash (b : List Nat) :
    SnapshotSync.hashBlob b = PainterRoom.hash b := rfl

/-- C10: interface defaulting.  An absent or unrecognized `eye` parameter
selects the left replica for every method — in particular PUT then
silently overwrites and DELETE silently clears the left eye, leaving the
right eye as loaded — and an absent `room` parameter routes to the room
named `global`. -/
theorem eye_room_defaults (p : Option String)
    (h : p = none ∨ (p ≠ some "left" ∧ p ≠ some "right"))
    (s : PainterRoom.RoomState) (b : List Nat) (inm : Option String) (now : Nat) :
    PainterRoom.parseEye p = .left ∧
    (PainterRoom.fetch s ⟨.PUT, p, inm, b⟩ now).1.eyes.left =
      ⟨some b, some (PainterRoom.hash b), now⟩ ∧
    (PainterRoom.fetch s ⟨.PUT, p, inm, b⟩ now).1.eyes.right =
      (PainterRoom.maybeLoad s).eyes.right ∧
    (PainterRoom.fetch s ⟨.DELETE, p, inm, b⟩ now).1.eyes.left = ⟨none, none, now⟩ ∧
    (PainterRoom.fetch s ⟨.DELETE, p, inm, b⟩ now).1.eyes.right =
      (PainterRoom.maybeLoad s).eyes.right ∧
    resolveRoom none = "global" := by
  have hp : PainterRoom.parseEye p = .left := by
    rcases h with rfl | ⟨h1, h2⟩
    · rfl
    · cases p with
      | none => rfl
      | some str =>
          have hs1 : str ≠ "left" := fun hh => h1 (by rw [hh])
          have hs2 : str ≠ "right" := fun hh => h2 (by rw [hh])
          simp [PainterRoom.parseEye, hs1, hs2]
  refine ⟨hp, ?_, ?_, ?_, ?_, rfl⟩ <;>
    simp [PainterRoom.fetch, hp, PainterRoom.persist, PainterRoom.Eyes.set]

/-- Witness for C10: the unrecognized eye string `"up"` behaves as the left
eye on a fresh room. -/
theorem eye_room_defaults_witness :
    PainterRoom.parseEye (some "up") = .left ∧
    (PainterRoom.fetch PainterRoom.initialRoom ⟨.PUT, some "up", none, []⟩ 5).1.eyes.left =
      ⟨some [], some (PainterRoom.hash []), 5⟩ ∧
    (PainterRoom.fetch PainterRoom.initialRoom ⟨.PUT, some "up", none, []⟩ 5).1.eyes.right =
      (PainterRoom.maybeLoad PainterRoom.initialRoom).eyes.right ∧
    (PainterRoom.fetch PainterRoom.initialRoom ⟨.DELETE, some "up", none, []⟩ 5).1.eyes.left =
      ⟨none, none, 5⟩ ∧
    (PainterRoom.fetch PainterRoom.initialRoom ⟨.DELETE, some "up", none, []⟩ 5).1.eyes.right =
      (PainterRoom.maybeLoad PainterRoom.initialRoom).eyes.right ∧
    resolveRoom none = "global" :=
  eye_room_defaults (some "up") (Or.inr ⟨by decide, by decide⟩)
    PainterRoom.initialRoom [] none 5

